import Mathlib

/-!
Shallow embedding of the catalog addon core (src/addon.js) and proofs of the
spec claims about it.

Modelling conventions:
- The shared NodeCache instance is an association list from string keys to a
  value together with the TTL (in seconds) it was stored under.  Overwrite is
  modelled by shadowing: a fresh entry is consed in front, and lookup always
  returns the newest entry for a key, which is observationally the same as
  destructive overwrite.  Expiry and the maxKeys eviction bound are not
  modelled; no claim depends on them.
- Every upstream HTTP call is a field of an `Env` record returning
  `Except Unit ...`; a `.error` value stands for a thrown/timed-out axios call.
- Concurrent `Promise.all` fan-out over per-item lookups is modelled by
  sequentially threading the cache through the items in input order, which is
  the ordering guarantee the code relies on.
- JavaScript string truthiness (empty string falsy) and number truthiness
  (zero falsy) are modelled explicitly where the code branches on them.
- `vote_average` is carried as its already-rendered decimal string (the
  `toFixed(1)` float formatting itself is outside the embedding; no claim
  touches it), with `none` standing for an absent or zero rating.
-/

/-- A formatted catalog entry as built by `formatMovie` / `formatSeries`. -/
structure MetaItem where
  id : String
  type : String
  name : String
  poster : String
  posterShape : String
  background : Option String
  description : String
  releaseInfo : Option String
  imdbRating : String
  language : String
deriving DecidableEq, Repr

/-- A value stored in the shared cache.  The code stores four kinds of
payloads under four disjoint key prefixes: formatted item lists (catalog
pages), booleans (classifier results), an IMDB id or null (resolver
results), and integers (learned page sizes). -/
inductive CVal where
  | metas (l : List MetaItem)
  | boolV (b : Bool)
  | idV (s : Option String)
  | natV (n : Nat)
deriving DecidableEq, Repr

/-- The shared cache: key, stored value, and the TTL the entry was stored
under (node-cache `cache.set(key, value, ttl)`); entries stored without an
explicit TTL get the configured default of 1800. -/
abbrev Cache := List (String × CVal × Nat)

/-- Lookup returning the newest entry (value and TTL) for a key. -/
def cacheGetEntry (key : String) (st : Cache) : Option (CVal × Nat) :=
  (st.find? (fun e => e.1 == key)).map (fun e => e.2)

/-- Lookup `cache.get(key)`: the stored value, or `none` when absent. -/
def cacheGet (key : String) (st : Cache) : Option CVal :=
  (cacheGetEntry key st).map (fun e => e.1)

/-- Store `cache.set(key, v, ttl)`: overwrite modelled by shadowing. -/
def cacheSet (key : String) (v : CVal) (ttl : Nat) (st : Cache) : Cache :=
  (key, v, ttl) :: st

/-- A raw TMDB record as consumed by the handler (movie and series fields
merged, as in the untyped JSON).  `id` is the source-native numeric id. -/
structure RawItem where
  id : Nat
  original_language : String
  release_date : Option String
  first_air_date : Option String
  poster_path : Option String
  backdrop_path : Option String
  vote_average : Option String
  title : Option String
  original_title : Option String
  name : Option String
  original_name : Option String
  overview : Option String
deriving DecidableEq, Repr

/-- The item-detail payload read by `hasHindiAudio`: the original language,
the iso_639_1 codes of the translation records, and the iso_3166_1 codes of
the release_dates records. -/
structure Detail where
  original_language : String
  translations : List String
  release_regions : List String
deriving DecidableEq, Repr

/-- The upstream world: each field models one axios endpoint of the code.
`.error ()` stands for a thrown or timed-out request. -/
structure Env where
  /-- GET search/movie with the query and page. -/
  searchMovie : String → Nat → Except Unit (List RawItem)
  /-- GET search/tv with the query and page. -/
  searchTv : String → Nat → Except Unit (List RawItem)
  /-- GET discover/movie with the hollywood_latest parameter set. -/
  discoverHollywood : Nat → Except Unit (List RawItem)
  /-- GET discover/movie with the indian_latest parameter set, taking the
  with_original_language code and the page. -/
  discoverIndian : String → Nat → Except Unit (List RawItem)
  /-- GET discover/tv with the hollywood_series_latest parameter set. -/
  discoverSeries : Nat → Except Unit (List RawItem)
  /-- GET <endpoint>/<id>/external_ids: the imdb_id field of the response
  (`none` when the record carries no imdb_id), per kind and source id. -/
  externalId : String → Nat → Except Unit (Option String)
  /-- GET movie/<id> with translations and release_dates appended. -/
  detail : Nat → Except Unit Detail

/-- JavaScript truthiness of an optional string field (absent and the empty
string are falsy). -/
def truthyStr : Option String → Bool
  | none => false
  | some s => !(s == "")

/-- JavaScript `x || d` on an optional string field. -/
def strTruthyD : Option String → String → String
  | none, d => d
  | some s, d => if s == "" then d else s

/-- Function `getLanguageLabel` of src/addon.js. -/
def getLanguageLabel (lang : String) : String :=
  match lang with
  | "hi" => "Hindi"
  | "en" => "English"
  | "ta" => "Tamil"
  | "te" => "Telugu"
  | "ml" => "Malayalam"
  | "kn" => "Kannada"
  | "mr" => "Marathi"
  | "bn" => "Bengali"
  | "pa" => "Punjabi"
  | _ => lang.toUpper

/-- Function `formatReleaseDate` of src/addon.js, modelled as the day-month-year
rearrangement of a well-formed `YYYY-MM-DD` input (the host-timezone effects
of the JavaScript Date round-trip are not modelled; no claim touches the
rendered date text). -/
def formatReleaseDate : Option String → Option String
  | none => none
  | some s =>
    if s == "" then none
    else some (s.drop 8 ++ "-" ++ (s.drop 5).take 2 ++ "-" ++ s.take 4)

/-- The poster URL built by the formatters. -/
def posterUrl (p : String) : String :=
  "https://image.tmdb.org/t/p/w500" ++ p

/-- The background URL built by the formatters. -/
def backdropUrl (p : String) : String :=
  "https://image.tmdb.org/t/p/original" ++ p

/-- Normalisation `response.data?.imdb_id || null`: a missing or empty identifier becomes
null. -/
def normId : Option String → Option String
  | some s => if s == "" then none else some s
  | none => none

/-- Function `getIMDBId` of src/addon.js: memoized external-id resolution.  A
successful response caches `imdb_id || null` under TTL 86400; a thrown
request caches `null` under TTL 3600. -/
def getIMDBId (env : Env) (tmdbId : Nat) (kind : String) (st : Cache) :
    Option String × Cache :=
  let cacheKey := "imdb_" ++ kind ++ "_" ++ toString tmdbId
  match cacheGet cacheKey st with
  | some (CVal.idV v) => (v, st)
  | some _ => (none, st)
  | none =>
    match env.externalId kind tmdbId with
    | Except.ok v =>
      let imdbId := normId v
      (imdbId, cacheSet cacheKey (CVal.idV imdbId) 86400 st)
    | Except.error _ => (none, cacheSet cacheKey (CVal.idV none) 3600 st)

/-- The three-signal disjunction evaluated by `hasHindiAudio` on a fetched
detail record: original-language match, a Hindi translation record, or a
release record for territory IN. -/
def qualifies (d : Detail) : Bool :=
  d.original_language == "hi" ||
    d.translations.any (fun t => t == "hi") ||
    d.release_regions.any (fun r => r == "IN")

/-- Function `hasHindiAudio` of src/addon.js: memoized classifier.  Each positive
signal caches `true` under TTL 86400; a negative outcome or a thrown
request caches `false` under TTL 3600. -/
def hasHindiAudio (env : Env) (movieId : Nat) (st : Cache) : Bool × Cache :=
  let cacheKey := "hindi_" ++ toString movieId
  match cacheGet cacheKey st with
  | some (CVal.boolV b) => (b, st)
  | some _ => (false, st)
  | none =>
    match env.detail movieId with
    | Except.error _ => (false, cacheSet cacheKey (CVal.boolV false) 3600 st)
    | Except.ok d =>
      if d.original_language == "hi" then
        (true, cacheSet cacheKey (CVal.boolV true) 86400 st)
      else if d.translations.any (fun t => t == "hi") then
        (true, cacheSet cacheKey (CVal.boolV true) 86400 st)
      else if d.release_regions.any (fun r => r == "IN") then
        (true, cacheSet cacheKey (CVal.boolV true) 86400 st)
      else
        (false, cacheSet cacheKey (CVal.boolV false) 3600 st)

/-- Function `formatMovie` of src/addon.js: `none` models the `null` returned for an
unrepresentable item. -/
def formatMovie (env : Env) (movie : RawItem) (st : Cache) :
    Option MetaItem × Cache :=
  if truthyStr movie.poster_path = false then (none, st)
  else if movie.id == 0 then (none, st)
  else
    match getIMDBId env movie.id "movie" st with
    | (none, st1) => (none, st1)
    | (some imdbId, st1) =>
      if imdbId == "" then (none, st1)
      else
        (some {
          id := imdbId
          type := "movie"
          name := strTruthyD movie.title (strTruthyD movie.original_title "Unknown")
          poster := posterUrl (movie.poster_path.getD "")
          posterShape := "poster"
          background :=
            match movie.backdrop_path with
            | some b => if b == "" then none else some (backdropUrl b)
            | none => none
          description := strTruthyD movie.overview "No description"
          releaseInfo :=
            match formatReleaseDate movie.release_date with
            | some r => some r
            | none =>
              match movie.release_date with
              | some d => if d == "" then none else some (d.take 4)
              | none => none
          imdbRating := movie.vote_average.getD ""
          language := getLanguageLabel movie.original_language }, st1)

/-- Function `formatSeries` of src/addon.js. -/
def formatSeries (env : Env) (series : RawItem) (st : Cache) :
    Option MetaItem × Cache :=
  if truthyStr series.poster_path = false then (none, st)
  else if series.id == 0 then (none, st)
  else
    match getIMDBId env series.id "series" st with
    | (none, st1) => (none, st1)
    | (some imdbId, st1) =>
      if imdbId == "" then (none, st1)
      else
        (some {
          id := imdbId
          type := "series"
          name := strTruthyD series.name (strTruthyD series.original_name "Unknown")
          poster := posterUrl (series.poster_path.getD "")
          posterShape := "poster"
          background :=
            match series.backdrop_path with
            | some b => if b == "" then none else some (backdropUrl b)
            | none => none
          description := strTruthyD series.overview "No description"
          releaseInfo :=
            match formatReleaseDate series.first_air_date with
            | some r => some r
            | none =>
              match series.first_air_date with
              | some d => if d == "" then none else some (d.take 4)
              | none => none
          imdbRating := series.vote_average.getD ""
          language := getLanguageLabel series.original_language }, st1)

/-- Fan-out `Promise.all` over per-item cache-touching lookups, modelled by
threading the cache through the items in input order (the fan-in preserves
input order). -/
def mapState {α β : Type} (f : α → Cache → β × Cache) :
    List α → Cache → List β × Cache
  | [], st => ([], st)
  | x :: xs, st =>
    let p := f x st
    let q := mapState f xs p.2
    (p.1 :: q.1, q.2)

/-- Filtering `list.filter((_, idx) => mask[idx])`: keep the items whose mask entry is
true, preserving order. -/
def filterByMask {α : Type} : List α → List Bool → List α
  | [], _ => []
  | _ :: _, [] => []
  | x :: xs, b :: bs =>
    if b then x :: filterByMask xs bs else filterByMask xs bs

/-- The deduplication loop of the composite catalog (seenIds Set plus push),
with the seen-id accumulator made explicit. -/
def dedupAux : List RawItem → List Nat → List RawItem
  | [], _ => []
  | m :: rest, seen =>
    if seen.contains m.id then dedupAux rest seen
    else m :: dedupAux rest (m.id :: seen)

/-- Deduplicate by source-native id, keeping the first occurrence. -/
def dedupById (l : List RawItem) : List RawItem :=
  dedupAux l []

/-- The sort key: `release_date || ''` (absent dates compare as the empty
string). -/
def dateKey (m : RawItem) : String :=
  m.release_date.getD ""

/-- Lexicographic comparison of character lists: `strLeB xs ys` holds when
`xs` compares at or below `ys`, the order localeCompare induces on ISO date
strings and the empty string. -/
def strLeB : List Char → List Char → Bool
  | [], _ => true
  | _ :: _, [] => false
  | c :: cs, d :: ds =>
    if c = d then strLeB cs ds else decide (c < d)

/-- The comparator of line 334: descending by release date
(`(b.release_date || '').localeCompare(a.release_date || '') <= 0`),
modelled with the lexicographic string order. -/
def dateDescLe (a b : RawItem) : Bool :=
  strLeB (dateKey b).data (dateKey a).data

/-- Line 334, `uniqueMovies.sort` with the descending localeCompare
comparator, modelled with a stable merge sort. -/
def sortByDateDesc (l : List RawItem) : List RawItem :=
  l.mergeSort dateDescLe

/-- The secondary languages of the composite catalog, in priority order. -/
def regionalLangs : List String :=
  ["ta", "te", "ml", "kn", "mr"]

/-- The languages accepted before running the classifier on a search hit. -/
def indianLangs : List String :=
  ["hi", "ta", "te", "ml", "kn", "mr", "bn", "pa"]

/-- Fan-out `Promise.all(list.map(m => formatMovie(m)))` followed by
`.filter(Boolean)`: format every raw movie and drop the unrepresentable
ones. -/
def formatAll (env : Env) (ms : List RawItem) (st : Cache) :
    List MetaItem × Cache :=
  let fmts := mapState (fun m s => formatMovie env m s) ms st
  (fmts.1.reduceOption, fmts.2)

/-- Fan-out `Promise.all(list.map(s => formatSeries(s)))` followed by
`.filter(Boolean)`. -/
def formatAllSeries (env : Env) (ms : List RawItem) (st : Cache) :
    List MetaItem × Cache :=
  let fmts := mapState (fun s c => formatSeries env s c) ms st
  (fmts.1.reduceOption, fmts.2)

/-- The secondary-language fan-out loop of lines 302-323: while fewer than
25 items are accumulated, query the next language, classify every returned
item, and append the qualifying ones.  A failed query aborts the whole
request; the error carries the cache as it stood at the throw. -/
def regionalLoop (env : Env) (page : Nat) :
    List String → List RawItem → Cache → Except Cache (List RawItem × Cache)
  | [], acc, st => Except.ok (acc, st)
  | lang :: rest, acc, st =>
    if 25 ≤ acc.length then Except.ok (acc, st)
    else
      match env.discoverIndian lang page with
      | Except.error _ => Except.error st
      | Except.ok regionalMovies =>
        let checks := mapState (fun m s => hasHindiAudio env m.id s) regionalMovies st
        let filteredRegional := filterByMask regionalMovies checks.1
        regionalLoop env page rest (acc ++ filteredRegional) checks.2

/-- The request-derived quantities of lines 198-211: catalog signature,
page-size cache key, effective page size, upstream page, and the catalog
page cache key. -/
structure Plan where
  base : String
  psKey : String
  pageSize : Nat
  page : Nat
  cacheKey : String
deriving DecidableEq, Repr

/-- The handler arguments: `type`, `id`, and the `extra` fields.  `skip` is
already parsed to a non-negative integer (`parseInt(extra.skip || 0, 10) || 0`). -/
structure Args where
  type : String
  id : String
  search : Option String
  skip : Nat
deriving DecidableEq, Repr

/-- The offset-to-page translation of line 209. -/
def upstreamPage (skip pageSize : Nat) : Nat :=
  skip / pageSize + 1

/-- Guess `cache.get(pageSizeKey) || 20`: the learned page size when a (truthy)
number is cached, the default 20 otherwise.  Keys with the `ps_` prefix only
ever hold `natV` values. -/
def learnedPageSize (st : Cache) (psKey : String) : Nat :=
  match cacheGet psKey st with
  | some (CVal.natV n) => if n == 0 then 20 else n
  | some _ => 20
  | none => 20

/-- Lines 198-211 of the handler. -/
def requestPlan (args : Args) (st : Cache) : Plan :=
  let searchQuery := args.search.getD ""
  let base := if searchQuery == "" then args.id else args.id ++ "_s_" ++ searchQuery
  let psKey := "ps_" ++ base
  let pageSize := learnedPageSize st psKey
  let page := upstreamPage args.skip pageSize
  { base := base
    psKey := psKey
    pageSize := pageSize
    page := page
    cacheKey := base ++ "_p" ++ toString page }

/-- Lines 357-364: store a non-empty result under the page cache key (with
the default TTL 1800), and, when the client offset was zero, learn the
observed count as the page size under TTL 86400.  An empty result is not
cached at all. -/
def storeResult (ck psKey : String) (skip : Nat) (metas : List MetaItem)
    (st : Cache) : Cache :=
  if 0 < metas.length then
    let stored := cacheSet ck (CVal.metas metas) 1800 st
    if skip == 0 then cacheSet psKey (CVal.natV metas.length) 86400 stored
    else stored
  else st

/-- The body of the `try` block (lines 221-355): computes the formatted
item list for the request, or fails carrying the cache as it stood when an
upstream query threw. -/
def catalogFetch (env : Env) (args : Args) (page : Nat) (st : Cache) :
    Except Cache (List MetaItem × Cache) :=
  let searchQuery := args.search.getD ""
  if searchQuery == "" then
    if args.type == "movie" && args.id == "hollywood_latest" then
      match env.discoverHollywood page with
      | Except.error _ => Except.error st
      | Except.ok movies => Except.ok (formatAll env movies st)
    else if args.type == "movie" && args.id == "indian_latest" then
      match env.discoverIndian "hi" page with
      | Except.error _ => Except.error st
      | Except.ok allMovies =>
        match regionalLoop env page regionalLangs allMovies st with
        | Except.error stE => Except.error stE
        | Except.ok (allMovies2, st1) =>
          let uniqueMovies := dedupById allMovies2
          let sorted := sortByDateDesc uniqueMovies
          Except.ok (formatAll env (sorted.take 20) st1)
    else if args.type == "series" && args.id == "hollywood_series_latest" then
      match env.discoverSeries page with
      | Except.error _ => Except.error st
      | Except.ok series => Except.ok (formatAllSeries env series st)
    else Except.ok ([], st)
  else
    if args.type == "movie" then
      match env.searchMovie searchQuery page with
      | Except.error _ => Except.error st
      | Except.ok movies =>
        if args.id == "indian_latest" then
          let checks := mapState
            (fun m s =>
              if indianLangs.contains m.original_language then hasHindiAudio env m.id s
              else (false, s))
            movies st
          let movies2 := filterByMask movies checks.1
          Except.ok (formatAll env movies2 checks.2)
        else if args.id == "hollywood_latest" then
          let movies2 := movies.filter (fun m => m.original_language == "en")
          Except.ok (formatAll env movies2 st)
        else
          Except.ok (formatAll env movies st)
    else if args.type == "series" then
      match env.searchTv searchQuery page with
      | Except.error _ => Except.error st
      | Except.ok series =>
        let series2 :=
          if args.id == "hollywood_series_latest" then
            series.filter (fun s => s.original_language == "en")
          else series
        Except.ok (formatAllSeries env series2 st)
    else Except.ok ([], st)

/-- The result record of the catalog handler. -/
structure HandlerResult where
  metas : List MetaItem
  cacheMaxAge : Nat
  staleRevalidate : Nat
  staleError : Nat
deriving DecidableEq, Repr

/-- The catalog handler (lines 197-371): derive the plan, serve a cached
page when present, otherwise run the fetch body; any thrown upstream query
is caught and yields an empty list.  Keys derived from the catalog
signature only ever hold `metas` values, so the cache-hit test `if (cached)`
is modelled by matching a stored item list (a stored empty list would also
hit, but one is never stored). -/
def catalogHandler (env : Env) (args : Args) (st : Cache) :
    HandlerResult × Cache :=
  let plan := requestPlan args st
  match cacheGet plan.cacheKey st with
  | some (CVal.metas l) =>
    ({ metas := l, cacheMaxAge := 0, staleRevalidate := 0, staleError := 0 }, st)
  | _ =>
    match catalogFetch env args plan.page st with
    | Except.ok (metas, st1) =>
      ({ metas := metas, cacheMaxAge := 0, staleRevalidate := 0, staleError := 0 },
        storeResult plan.cacheKey plan.psKey args.skip metas st1)
    | Except.error stE =>
      ({ metas := [], cacheMaxAge := 0, staleRevalidate := 0, staleError := 0 }, stE)

/-! ### Cache lemmas -/

theorem cacheGet_cacheSet (k k2 : String) (v : CVal) (t : Nat) (st : Cache) :
    cacheGet k (cacheSet k2 v t st) = if k = k2 then some v else cacheGet k st := by
  by_cases h : k = k2
  · subst h
    simp [cacheGet, cacheGetEntry, cacheSet, List.find?]
  · have hb : (k2 == k) = false := by
      simp only [beq_eq_false_iff_ne, ne_eq]
      exact fun e => h e.symm
    simp [cacheGet, cacheGetEntry, cacheSet, List.find?, hb, h]

theorem cacheGetEntry_cacheSet_same (k : String) (v : CVal) (t : Nat) (st : Cache) :
    cacheGetEntry k (cacheSet k v t st) = some (v, t) := by
  simp [cacheGetEntry, cacheSet, List.find?]

/-! ### The environments and inputs used by the concrete witnesses -/

/-- A world in which every upstream request throws. -/
def envFail : Env where
  searchMovie := fun _ _ => Except.error ()
  searchTv := fun _ _ => Except.error ()
  discoverHollywood := fun _ => Except.error ()
  discoverIndian := fun _ _ => Except.error ()
  discoverSeries := fun _ => Except.error ()
  externalId := fun _ _ => Except.error ()
  detail := fun _ => Except.error ()

def argsHollywood : Args :=
  { type := "movie", id := "hollywood_latest", search := none, skip := 0 }

def argsIndian : Args :=
  { type := "movie", id := "indian_latest", search := none, skip := 0 }

/-! ### C1: failures yield a well-formed empty result -/

/-- C1: on a cache miss, whenever the fetch body aborts because an upstream
query threw, the catalog handler still returns a well-formed result whose
item list is empty; the exception never escapes (the handler is a total
function by construction). -/
theorem catalog_fail_empty (env : Env) (args : Args) (st stE : Cache)
    (hmiss : cacheGet (requestPlan args st).cacheKey st = none)
    (hfail : catalogFetch env args (requestPlan args st).page st = Except.error stE) :
    catalogHandler env args st =
      ({ metas := [], cacheMaxAge := 0, staleRevalidate := 0, staleError := 0 }, stE) := by
  simp only [catalogHandler]
  rw [hmiss, hfail]

/-- Witness for C1: the all-failing world, a first-page hollywood request,
the empty cache. -/
theorem catalog_fail_empty_w :
    cacheGet (requestPlan argsHollywood []).cacheKey [] = none ∧
    catalogFetch envFail argsHollywood (requestPlan argsHollywood []).page [] =
      Except.error [] ∧
    catalogHandler envFail argsHollywood [] =
      ({ metas := [], cacheMaxAge := 0, staleRevalidate := 0, staleError := 0 }, []) :=
  ⟨rfl, rfl, catalog_fail_empty envFail argsHollywood [] [] rfl rfl⟩

/-! ### C2: the offset-to-page translation -/

theorem learnedPageSize_pos (st : Cache) (psKey : String) :
    0 < learnedPageSize st psKey := by
  unfold learnedPageSize
  cases h : cacheGet psKey st with
  | none => show (0 : Nat) < 20; omega
  | some v =>
    cases v with
    | natV n =>
      show 0 < (if n == 0 then 20 else n)
      by_cases hz : n = 0
      · simp [hz]
      · have hb : (n == 0) = false := by simpa using hz
        simp only [hb, Bool.false_eq_true, if_false]
        omega
    | metas l => show (0 : Nat) < 20; omega
    | boolV b => show (0 : Nat) < 20; omega
    | idV o => show (0 : Nat) < 20; omega

/-- C2: the handler computes the upstream page as
`floor(offset / pageSize) + 1`, with the page size read from the learner
cache entry when a positive size is present and defaulting to 20 otherwise;
the page size is always positive and offset 0 maps to page 1. -/
theorem upstream_page_formula (args : Args) (st : Cache) :
    0 < (requestPlan args st).pageSize ∧
    (requestPlan args st).page = args.skip / (requestPlan args st).pageSize + 1 ∧
    (args.skip = 0 → (requestPlan args st).page = 1) ∧
    (cacheGet (requestPlan args st).psKey st = none →
      (requestPlan args st).pageSize = 20) ∧
    (∀ n, 0 < n → cacheGet (requestPlan args st).psKey st = some (CVal.natV n) →
      (requestPlan args st).pageSize = n) := by
  refine ⟨learnedPageSize_pos st _, rfl, ?_, ?_, ?_⟩
  · intro h
    simp [requestPlan, upstreamPage, h]
  · intro h
    show learnedPageSize st ((requestPlan args st).psKey) = 20
    unfold learnedPageSize
    rw [h]
  · intro n hn h
    show learnedPageSize st ((requestPlan args st).psKey) = n
    unfold learnedPageSize
    rw [h]
    have hnz : n ≠ 0 := by omega
    simp [hnz]

/-- Witness for C2: with an empty cache (nothing learned) a zero offset
maps to page 1 with the default page size 20. -/
theorem upstream_page_formula_w :
    0 < (requestPlan argsHollywood []).pageSize ∧
    (requestPlan argsHollywood []).page = 1 ∧
    (requestPlan argsHollywood []).pageSize = 20 :=
  ⟨(upstream_page_formula argsHollywood []).1,
    (upstream_page_formula argsHollywood []).2.2.1 rfl,
    (upstream_page_formula argsHollywood []).2.2.2.1 rfl⟩

/-! ### C3: page-size learning -/

/-- A formatted item used by concrete witnesses. -/
def metaA : MetaItem :=
  { id := "tt0000001", type := "movie", name := "A", poster := posterUrl "/a.jpg",
    posterShape := "poster", background := none, description := "No description",
    releaseInfo := none, imdbRating := "", language := "Hindi" }

/-- C3: the page size is learned exactly on a zero-offset request with a
non-empty result, storing the observed count (first conjunct: the entry
written; second: no other circumstance touches the learner or any key other
than the page cache key; third: the handler defers to `storeResult` on the
fetch path; fourth: with a learned size of 17, offsets 17 and 34 map to
upstream pages 2 and 3). -/
theorem pageSize_learning :
    (∀ ck pk skip (metas : List MetaItem) st, skip = 0 → metas ≠ [] →
      cacheGet pk (storeResult ck pk skip metas st) =
        some (CVal.natV metas.length)) ∧
    (∀ ck pk skip (metas : List MetaItem) st key,
      cacheGet key (storeResult ck pk skip metas st) ≠ cacheGet key st →
      key = ck ∨ (key = pk ∧ skip = 0 ∧ metas ≠ [])) ∧
    (∀ env args st metas st1,
      cacheGet (requestPlan args st).cacheKey st = none →
      catalogFetch env args (requestPlan args st).page st = Except.ok (metas, st1) →
      (catalogHandler env args st).2 =
        storeResult (requestPlan args st).cacheKey (requestPlan args st).psKey
          args.skip metas st1) ∧
    (∀ args st, cacheGet (requestPlan args st).psKey st = some (CVal.natV 17) →
      (args.skip = 17 → (requestPlan args st).page = 2) ∧
      (args.skip = 34 → (requestPlan args st).page = 3)) := by
  refine ⟨?_, ?_, ?_, ?_⟩
  · intro ck pk skip metas st hs hm
    subst hs
    unfold storeResult
    rw [if_pos (List.length_pos.mpr hm)]
    simp only [beq_self_eq_true, if_true]
    rw [cacheGet_cacheSet, if_pos rfl]
  · intro ck pk skip metas st key h
    unfold storeResult at h
    by_cases hm : 0 < metas.length
    · rw [if_pos hm] at h
      by_cases hs : (skip == 0) = true
      · rw [if_pos hs] at h
        rw [cacheGet_cacheSet] at h
        by_cases hk : key = pk
        · exact Or.inr ⟨hk, by simpa using hs, List.length_pos.mp hm⟩
        · rw [if_neg hk, cacheGet_cacheSet] at h
          by_cases hk2 : key = ck
          · exact Or.inl hk2
          · rw [if_neg hk2] at h
            exact absurd rfl h
      · rw [if_neg hs] at h
        rw [cacheGet_cacheSet] at h
        by_cases hk2 : key = ck
        · exact Or.inl hk2
        · rw [if_neg hk2] at h
          exact absurd rfl h
    · rw [if_neg hm] at h
      exact absurd rfl h
  · intro env args st metas st1 hmiss hok
    simp only [catalogHandler]
    rw [hmiss, hok]
  · intro args st h
    have hps : learnedPageSize st ((requestPlan args st).psKey) = 17 := by
      unfold learnedPageSize
      rw [h]
      rfl
    constructor
    · intro h17
      show upstreamPage args.skip (learnedPageSize st ((requestPlan args st).psKey)) = 2
      rw [hps, h17]
      rfl
    · intro h34
      show upstreamPage args.skip (learnedPageSize st ((requestPlan args st).psKey)) = 3
      rw [hps, h34]
      rfl

/-- The cache after a learned page size of 17 for the indian_latest
signature. -/
def st17 : Cache := [("ps_indian_latest", (CVal.natV 17, 86400))]

def argsSkip17 : Args :=
  { type := "movie", id := "indian_latest", search := none, skip := 17 }

def argsSkip34 : Args :=
  { type := "movie", id := "indian_latest", search := none, skip := 34 }

/-- Witness for C3: learning one item at offset 0, and the learned size 17
mapping offsets 17 and 34 to pages 2 and 3. -/
theorem pageSize_learning_w :
    cacheGet "ps_b" (storeResult "a" "ps_b" 0 [metaA] []) =
      some (CVal.natV 1) ∧
    (requestPlan argsSkip17 st17).page = 2 ∧
    (requestPlan argsSkip34 st17).page = 3 :=
  ⟨pageSize_learning.1 "a" "ps_b" 0 [metaA] [] rfl (by decide),
    ((pageSize_learning.2.2.2 argsSkip17 st17 rfl).1 rfl),
    ((pageSize_learning.2.2.2 argsSkip34 st17 rfl).2 rfl)⟩

/-! ### C8: resolver cache TTLs -/

/-- A world in which the external-id record exists but carries no
identifier, every other request failing. -/
def envAbsentId : Env :=
  { envFail with externalId := fun _ _ => Except.ok none }

/-- A world in which the external-id lookup resolves, every other request
failing. -/
def envOkId : Env :=
  { envFail with externalId := fun _ _ => Except.ok (some "tt0012") }

/-- Counterexample to C8 as stated: when the upstream call succeeds but the
record carries no identifier, the null sentinel is cached under the LONG
TTL (86400), not the short one (3600). -/
theorem resolver_absent_long_ttl_cx :
    getIMDBId envAbsentId 5 "movie" [] =
      (none, [("imdb_movie_5", (CVal.idV none, 86400))]) ∧
    (86400 : Nat) ≠ 3600 := by
  constructor
  · rfl
  · decide

/-- C8 amended: on a cache miss the resolver caches the outcome of a
SUCCESSFUL upstream call — the resolved identifier, or null when the record
carries no identifier — under the long TTL 86400, and caches the null
sentinel under the short TTL 3600 only when the upstream call itself
throws. -/
theorem resolver_ttl_policy (env : Env) (tmdbId : Nat) (kind : String) (st : Cache)
    (hmiss : cacheGet ("imdb_" ++ kind ++ "_" ++ toString tmdbId) st = none) :
    (∀ v, env.externalId kind tmdbId = Except.ok v →
      getIMDBId env tmdbId kind st =
        (normId v, cacheSet ("imdb_" ++ kind ++ "_" ++ toString tmdbId)
          (CVal.idV (normId v)) 86400 st)) ∧
    (env.externalId kind tmdbId = Except.error () →
      getIMDBId env tmdbId kind st =
        (none, cacheSet ("imdb_" ++ kind ++ "_" ++ toString tmdbId)
          (CVal.idV none) 3600 st)) := by
  constructor
  · intro v hok
    simp only [getIMDBId]
    rw [hmiss, hok]
  · intro herr
    simp only [getIMDBId]
    rw [hmiss, herr]

/-- Witness for C8 (amended): a resolved identifier is cached under 86400;
a thrown lookup caches the sentinel under 3600. -/
theorem resolver_ttl_policy_w :
    cacheGet "imdb_movie_7" [] = none ∧
    getIMDBId envOkId 7 "movie" [] =
      (some "tt0012", cacheSet "imdb_movie_7" (CVal.idV (some "tt0012")) 86400 []) ∧
    getIMDBId envFail 7 "movie" [] =
      (none, cacheSet "imdb_movie_7" (CVal.idV none) 3600 []) :=
  ⟨rfl, (resolver_ttl_policy envOkId 7 "movie" [] rfl).1 (some "tt0012") rfl,
    (resolver_ttl_policy envFail 7 "movie" [] rfl).2 rfl⟩

/-! ### C9: the audio-language classifier -/

/-- C9: on a cache miss with a successful detail fetch, the classifier
returns exactly the disjunction of the three signals and caches the result,
true under TTL 86400 and false under TTL 3600. -/
theorem classifier_spec (env : Env) (movieId : Nat) (st : Cache) (d : Detail)
    (hmiss : cacheGet ("hindi_" ++ toString movieId) st = none)
    (hok : env.detail movieId = Except.ok d) :
    hasHindiAudio env movieId st =
      (qualifies d,
        cacheSet ("hindi_" ++ toString movieId) (CVal.boolV (qualifies d))
          (if qualifies d then 86400 else 3600) st) := by
  simp only [hasHindiAudio]
  rw [hmiss, hok]
  cases h1 : d.original_language == "hi" <;>
    cases h2 : d.translations.any (fun t => t == "hi") <;>
      cases h3 : d.release_regions.any (fun r => r == "IN") <;>
        simp [qualifies, h1, h2, h3]

/-- A detail record qualifying only through the territory signal. -/
def detailIN : Detail :=
  { original_language := "ta", translations := ["fr"], release_regions := ["US", "IN"] }

/-- A world in which the item-detail fetch succeeds with `detailIN`. -/
def envDetail : Env :=
  { envFail with detail := fun _ => Except.ok detailIN }

/-- Witness for C9: the territory signal alone qualifies and the true
result is cached under 86400. -/
theorem classifier_spec_w :
    cacheGet "hindi_9" [] = none ∧
    envDetail.detail 9 = Except.ok detailIN ∧
    hasHindiAudio envDetail 9 [] =
      (true, cacheSet "hindi_9" (CVal.boolV true) 86400 []) :=
  ⟨rfl, rfl, classifier_spec envDetail 9 [] detailIN rfl rfl⟩

/-! ### C4: the composite fan-out floor -/

/-- A raw item used by concrete witnesses. -/
def item0 : RawItem :=
  { id := 1, original_language := "hi", release_date := some "2024-05-01",
    first_air_date := none, poster_path := some "/p.jpg", backdrop_path := none,
    vote_average := none, title := some "T", original_title := none,
    name := none, original_name := none, overview := none }

/-- C4: at each turn of the secondary-language loop, when 25 or more items
are already accumulated the loop returns immediately — for EVERY world,
including ones whose queries all fail, so no further language can have been
queried — and when fewer than 25 are accumulated the head language IS
queried (a failing query aborts the loop; a successful one appends its
qualifying items and continues with the remaining languages). -/
theorem regional_floor (env : Env) (page : Nat) (langs : List String)
    (acc : List RawItem) (st : Cache) :
    (25 ≤ acc.length → regionalLoop env page langs acc st = Except.ok (acc, st)) ∧
    (∀ lang rest, langs = lang :: rest → acc.length < 25 →
      (env.discoverIndian lang page = Except.error () →
        regionalLoop env page langs acc st = Except.error st) ∧
      (∀ regional, env.discoverIndian lang page = Except.ok regional →
        regionalLoop env page langs acc st =
          regionalLoop env page rest
            (acc ++ filterByMask regional
              (mapState (fun m s => hasHindiAudio env m.id s) regional st).1)
            (mapState (fun m s => hasHindiAudio env m.id s) regional st).2)) := by
  constructor
  · intro h
    cases langs with
    | nil => rfl
    | cons lang rest =>
      simp only [regionalLoop]
      rw [if_pos h]
  · intro lang rest hl hlt
    subst hl
    constructor
    · intro herr
      simp only [regionalLoop]
      rw [if_neg (by omega), herr]
    · intro regional hok
      simp only [regionalLoop]
      rw [if_neg (by omega), hok]

/-- Witness for C4: with 25 items accumulated the loop ignores the
remaining language even in the all-failing world; with an empty accumulator
the language is queried and the failure aborts. -/
theorem regional_floor_w :
    25 ≤ (List.replicate 25 item0).length ∧
    regionalLoop envFail 1 ["ta"] (List.replicate 25 item0) [] =
      Except.ok (List.replicate 25 item0, []) ∧
    regionalLoop envFail 1 ["ta"] [] [] = Except.error [] :=
  ⟨by simp,
    (regional_floor envFail 1 ["ta"] (List.replicate 25 item0) []).1 (by simp),
    ((regional_floor envFail 1 ["ta"] [] []).2 "ta" [] rfl (by simp)).1 rfl⟩

/-! ### C5: deduplication by source id -/

theorem dedupAux_sublist :
    ∀ (l : List RawItem) (seen : List Nat), (dedupAux l seen).Sublist l := by
  intro l
  induction l with
  | nil => intro seen; simp [dedupAux]
  | cons m rest ih =>
    intro seen
    unfold dedupAux
    by_cases h : m.id ∈ seen
    · have hc : seen.contains m.id = true := by simp [List.contains, h]
      rw [hc]
      simp only [if_true]
      exact (ih seen).cons m
    · have hc : seen.contains m.id = false := by simp [List.contains, h]
      rw [hc]
      simp only [Bool.false_eq_true, if_false]
      exact (ih (m.id :: seen)).cons₂ m

theorem dedupAux_not_seen :
    ∀ (l : List RawItem) (seen : List Nat) (y : RawItem),
      y ∈ dedupAux l seen → y.id ∉ seen := by
  intro l
  induction l with
  | nil => intro seen y hy; simp [dedupAux] at hy
  | cons m rest ih =>
    intro seen y hy
    unfold dedupAux at hy
    by_cases h : m.id ∈ seen
    · have hc : seen.contains m.id = true := by simp [List.contains, h]
      rw [hc] at hy
      simp only [if_true] at hy
      exact ih seen y hy
    · have hc : seen.contains m.id = false := by simp [List.contains, h]
      rw [hc] at hy
      simp only [Bool.false_eq_true, if_false] at hy
      rcases List.mem_cons.mp hy with h1 | h1
      · subst h1
        exact h
      · intro hmem
        exact ih (m.id :: seen) y h1 (List.mem_cons_of_mem _ hmem)

theorem dedupAux_nodup :
    ∀ (l : List RawItem) (seen : List Nat),
      ((dedupAux l seen).map RawItem.id).Nodup := by
  intro l
  induction l with
  | nil => intro seen; simp [dedupAux]
  | cons m rest ih =>
    intro seen
    unfold dedupAux
    by_cases h : m.id ∈ seen
    · have hc : seen.contains m.id = true := by simp [List.contains, h]
      rw [hc]
      simp only [if_true]
      exact ih seen
    · have hc : seen.contains m.id = false := by simp [List.contains, h]
      rw [hc]
      simp only [Bool.false_eq_true, if_false, List.map_cons]
      refine List.nodup_cons.mpr ⟨?_, ih (m.id :: seen)⟩
      intro hmem
      rcases List.mem_map.mp hmem with ⟨y, hy, hid⟩
      exact dedupAux_not_seen rest (m.id :: seen) y hy (hid ▸ List.mem_cons_self _ _)

theorem dedupAux_covers :
    ∀ (l : List RawItem) (seen : List Nat) (x : RawItem),
      x ∈ l → x.id ∉ seen → x.id ∈ (dedupAux l seen).map RawItem.id := by
  intro l
  induction l with
  | nil => intro seen x hx; simp at hx
  | cons m rest ih =>
    intro seen x hx hns
    unfold dedupAux
    by_cases h : m.id ∈ seen
    · have hc : seen.contains m.id = true := by simp [List.contains, h]
      rw [hc]
      simp only [if_true]
      rcases List.mem_cons.mp hx with h1 | h1
      · subst h1
        exact absurd h hns
      · exact ih seen x h1 hns
    · have hc : seen.contains m.id = false := by simp [List.contains, h]
      rw [hc]
      simp only [Bool.false_eq_true, if_false, List.map_cons]
      rcases List.mem_cons.mp hx with h1 | h1
      · subst h1
        exact List.mem_cons_self _ _
      · by_cases hxm : x.id = m.id
        · rw [hxm]
          exact List.mem_cons_self _ _
        · refine List.mem_cons_of_mem _ ?_
          refine ih (m.id :: seen) x h1 ?_
          intro hmem
          rcases List.mem_cons.mp hmem with h2 | h2
          · exact hxm h2
          · exact hns h2

theorem dedupAux_first :
    ∀ (l : List RawItem) (seen : List Nat) (y : RawItem),
      y ∈ dedupAux l seen → l.find? (fun z => z.id == y.id) = some y := by
  intro l
  induction l with
  | nil => intro seen y hy; simp [dedupAux] at hy
  | cons m rest ih =>
    intro seen y hy
    unfold dedupAux at hy
    by_cases h : m.id ∈ seen
    · have hc : seen.contains m.id = true := by simp [List.contains, h]
      rw [hc] at hy
      simp only [if_true] at hy
      have hyid : y.id ∉ seen := dedupAux_not_seen rest seen y hy
      have hne : ¬((fun z => z.id == y.id) m = true) := by
        simp only [beq_iff_eq]
        intro he
        exact hyid (he ▸ h)
      rw [@List.find?_cons_of_neg RawItem (fun z => z.id == y.id) m rest hne]
      exact ih seen y hy
    · have hc : seen.contains m.id = false := by simp [List.contains, h]
      rw [hc] at hy
      simp only [Bool.false_eq_true, if_false] at hy
      rcases List.mem_cons.mp hy with h1 | h1
      · subst h1
        exact List.find?_cons_of_pos _ (by simp)
      · have hyid : y.id ∉ m.id :: seen := dedupAux_not_seen rest (m.id :: seen) y h1
        have hne : ¬((fun z => z.id == y.id) m = true) := by
          simp only [beq_iff_eq]
          intro he
          exact hyid (he ▸ List.mem_cons_self _ _)
        rw [@List.find?_cons_of_neg RawItem (fun z => z.id == y.id) m rest hne]
        exact ih (m.id :: seen) y h1

/-- C5: deduplication keeps a subsequence of the input (first conjunct:
relative order is preserved), with pairwise distinct source ids (second),
covering every input id (third), and every kept item is exactly the FIRST
input item carrying its id (fourth) — so each id occurs exactly once, at
the position its first occurrence induces. -/
theorem dedup_spec (l : List RawItem) :
    (dedupById l).Sublist l ∧
    ((dedupById l).map RawItem.id).Nodup ∧
    (∀ x, x ∈ l → x.id ∈ (dedupById l).map RawItem.id) ∧
    (∀ y, y ∈ dedupById l → l.find? (fun z => z.id == y.id) = some y) := by
  refine ⟨dedupAux_sublist l [], dedupAux_nodup l [], ?_, ?_⟩
  · intro x hx
    exact dedupAux_covers l [] x hx (by simp)
  · intro y hy
    exact dedupAux_first l [] y hy

/-- Items with a repeated source id used by the C5 witness. -/
def itemA : RawItem := { item0 with id := 1, title := some "A" }

def itemB : RawItem := { item0 with id := 2, title := some "B" }

def itemA2 : RawItem := { item0 with id := 1, title := some "A again" }

def demoDup : List RawItem := [itemA, itemB, itemA2]

/-- Witness for C5: the duplicate id 1 survives exactly once, as the first
occurrence `itemA`, in first-occurrence position. -/
theorem dedup_spec_w :
    itemA2 ∈ demoDup ∧
    itemA2.id ∈ (dedupById demoDup).map RawItem.id ∧
    itemA ∈ dedupById demoDup ∧
    demoDup.find? (fun z => z.id == itemA.id) = some itemA ∧
    dedupById demoDup = [itemA, itemB] :=
  ⟨by decide, (dedup_spec demoDup).2.2.1 itemA2 (by decide),
    by decide, (dedup_spec demoDup).2.2.2 itemA (by decide), by decide⟩

/-! ### C6: descending release-date sort -/

theorem strLeB_trans : ∀ xs ys zs : List Char,
    strLeB xs ys = true → strLeB ys zs = true → strLeB xs zs = true := by
  intro xs
  induction xs with
  | nil => intro ys zs h1 h2; simp [strLeB]
  | cons c cs ih =>
    intro ys zs h1 h2
    cases ys with
    | nil => simp [strLeB] at h1
    | cons d ds =>
      cases zs with
      | nil => simp [strLeB] at h2
      | cons e es =>
        simp only [strLeB] at h1 h2 ⊢
        by_cases hcd : c = d
        · subst hcd
          rw [if_pos rfl] at h1
          by_cases hce : c = e
          · subst hce
            rw [if_pos rfl] at h2 ⊢
            exact ih ds es h1 h2
          · rw [if_neg hce] at h2 ⊢
            exact h2
        · rw [if_neg hcd] at h1
          have hlt1 : c < d := of_decide_eq_true h1
          by_cases hde : d = e
          · subst hde
            rw [if_neg hcd]
            exact h1
          · rw [if_neg hde] at h2
            have hlt2 : d < e := of_decide_eq_true h2
            have hlt : c < e := lt_trans hlt1 hlt2
            rw [if_neg (ne_of_lt hlt)]
            exact decide_eq_true hlt

theorem strLeB_total : ∀ xs ys : List Char,
    (strLeB xs ys || strLeB ys xs) = true := by
  intro xs
  induction xs with
  | nil => intro ys; simp [strLeB]
  | cons c cs ih =>
    intro ys
    cases ys with
    | nil => simp [strLeB]
    | cons d ds =>
      simp only [strLeB]
      by_cases h : c = d
      · subst h
        rw [if_pos rfl, if_pos rfl]
        exact ih ds
      · have h2 : d ≠ c := fun e => h e.symm
        rw [if_neg h, if_neg h2]
        simp only [Bool.or_eq_true, decide_eq_true_eq]
        rcases lt_trichotomy c d with hlt | heq | hgt
        · exact Or.inl hlt
        · exact absurd heq h
        · exact Or.inr hgt

theorem dateDescLe_trans : ∀ (a b c : RawItem),
    dateDescLe a b = true → dateDescLe b c = true → dateDescLe a c = true := by
  intro a b c h1 h2
  exact strLeB_trans _ _ _ h2 h1

theorem dateDescLe_total : ∀ (a b : RawItem),
    (dateDescLe a b || dateDescLe b a) = true := by
  intro a b
  exact strLeB_total (dateKey b).data (dateKey a).data

/-- Items with release dates 2024-05-01, absent, and 2023-01-01. -/
def demo2024 : RawItem := { item0 with id := 11, release_date := some "2024-05-01" }

def demoNoDate : RawItem := { item0 with id := 12, release_date := none }

def demo2023 : RawItem := { item0 with id := 13, release_date := some "2023-01-01" }

unseal List.merge List.mergeSort in
/-- C6: the composite sort permutes its input and orders it by release date
descending with the absent date compared as the empty string (which sorts
last); on the dates 2024-05-01, absent, 2023-01-01 it yields 2024-05-01,
2023-01-01, absent. -/
theorem catalog_sort_spec :
    (∀ l : List RawItem, (sortByDateDesc l).Perm l) ∧
    (∀ l : List RawItem,
      (sortByDateDesc l).Pairwise (fun a b => dateDescLe a b = true)) ∧
    sortByDateDesc [demo2024, demoNoDate, demo2023] =
      [demo2024, demo2023, demoNoDate] := by
  refine ⟨fun l => List.mergeSort_perm l _, ?_, ?_⟩
  · intro l
    exact List.sorted_mergeSort dateDescLe_trans dateDescLe_total l
  · rfl

/-! ### C7: unrepresentable items are dropped -/

theorem posterUrl_ne_empty (p : String) : posterUrl p ≠ "" := by
  intro h
  have hlen : (posterUrl p).length = 0 := by rw [h]; rfl
  unfold posterUrl at hlen
  rw [String.length_append] at hlen
  have : ("https://image.tmdb.org/t/p/w500" : String).length = 31 := rfl
  omega

theorem formatMovie_none_of_no_poster (env : Env) (m : RawItem) (st : Cache)
    (h : truthyStr m.poster_path = false) : (formatMovie env m st).1 = none := by
  unfold formatMovie
  rw [if_pos h]

theorem formatMovie_none_of_unresolved (env : Env) (m : RawItem) (st : Cache)
    (h : truthyStr (getIMDBId env m.id "movie" st).1 = false) :
    (formatMovie env m st).1 = none := by
  unfold formatMovie
  by_cases hp : truthyStr m.poster_path = false
  · rw [if_pos hp]
  · rw [if_neg hp]
    by_cases hid : (m.id == 0) = true
    · rw [if_pos hid]
    · rw [if_neg hid]
      rcases hgp : getIMDBId env m.id "movie" st with ⟨o, st1⟩
      rw [hgp] at h
      cases o with
      | none => rfl
      | some s =>
        simp only [truthyStr, Bool.not_eq_false'] at h
        simp [h]

theorem formatMovie_some_fields (env : Env) (m : RawItem) (st : Cache)
    (meta : MetaItem) (h : (formatMovie env m st).1 = some meta) :
    meta.id ≠ "" ∧ meta.poster ≠ "" := by
  unfold formatMovie at h
  by_cases hp : truthyStr m.poster_path = false
  · rw [if_pos hp] at h
    exact absurd h (by simp)
  · rw [if_neg hp] at h
    by_cases hid : (m.id == 0) = true
    · rw [if_pos hid] at h
      exact absurd h (by simp)
    · rw [if_neg hid] at h
      rcases hgp : getIMDBId env m.id "movie" st with ⟨o, st1⟩
      rw [hgp] at h
      cases o with
      | none => exact absurd h (by simp)
      | some s =>
        by_cases hs : (s == "") = true
        · simp [hs] at h
        · have hs2 : (s == "") = false := by simpa using hs
          simp only [hs2, Bool.false_eq_true, if_false] at h
          have hmeta := Option.some.inj h
          subst hmeta
          constructor
          · simpa using hs
          · exact posterUrl_ne_empty _

theorem formatAll_fields (env : Env) :
    ∀ (ms : List RawItem) (st : Cache) (meta : MetaItem),
      meta ∈ (formatAll env ms st).1 → meta.id ≠ "" ∧ meta.poster ≠ "" := by
  intro ms
  induction ms with
  | nil =>
    intro st meta h
    simp [formatAll, mapState] at h
  | cons m rest ih =>
    intro st meta h
    simp only [formatAll, mapState] at h
    rcases hgp : formatMovie env m st with ⟨o, st1⟩
    rw [hgp] at h
    cases o with
    | none =>
      rw [List.reduceOption_cons_of_none] at h
      exact ih st1 meta (by simpa [formatAll] using h)
    | some x =>
      rw [List.reduceOption_cons_of_some] at h
      rcases List.mem_cons.mp h with h1 | h1
      · subst h1
        exact formatMovie_some_fields env m st meta (by rw [hgp])
      · exact ih st1 meta (by simpa [formatAll] using h1)

/-- C7: an item whose poster reference is absent or empty, or whose
external-id resolution yields no (truthy) identifier, formats to the null
sentinel and is therefore dropped by the `.filter(Boolean)` step; every
item surviving formatting carries a non-empty canonical identifier and a
non-empty poster URL. -/
theorem format_unrepresentable (env : Env) (st : Cache) :
    (∀ m : RawItem, truthyStr m.poster_path = false →
      (formatMovie env m st).1 = none) ∧
    (∀ m : RawItem, truthyStr (getIMDBId env m.id "movie" st).1 = false →
      (formatMovie env m st).1 = none) ∧
    (∀ (ms : List RawItem) (meta : MetaItem), meta ∈ (formatAll env ms st).1 →
      meta.id ≠ "" ∧ meta.poster ≠ "") :=
  ⟨fun m h => formatMovie_none_of_no_poster env m st h,
    fun m h => formatMovie_none_of_unresolved env m st h,
    fun ms meta h => formatAll_fields env ms st meta h⟩

/-- An item with no poster reference. -/
def itemNoPoster : RawItem := { item0 with id := 3, poster_path := none }

/-- The formatted record produced for `item0` in the world `envOkId`. -/
def metaItem0 : MetaItem :=
  { id := "tt0012", type := "movie", name := "T", poster := posterUrl "/p.jpg",
    posterShape := "poster", background := none, description := "No description",
    releaseInfo := some "01-05-2024", imdbRating := "", language := "Hindi" }

/-- Witness for C7: the missing poster and the absent identifier each force
the null sentinel, and a representable item formats with a non-empty id and
poster. -/
theorem format_unrepresentable_w :
    truthyStr itemNoPoster.poster_path = false ∧
    (formatMovie envOkId itemNoPoster []).1 = none ∧
    truthyStr (getIMDBId envAbsentId item0.id "movie" []).1 = false ∧
    (formatMovie envAbsentId item0 []).1 = none ∧
    metaItem0 ∈ (formatAll envOkId [item0] []).1 ∧
    metaItem0.id ≠ "" ∧ metaItem0.poster ≠ "" :=
  ⟨rfl,
    (format_unrepresentable envOkId []).1 itemNoPoster rfl,
    rfl,
    (format_unrepresentable envAbsentId []).2.1 item0 rfl,
    by decide,
    ((format_unrepresentable envOkId []).2.2 [item0] metaItem0 (by decide)).1,
    ((format_unrepresentable envOkId []).2.2 [item0] metaItem0 (by decide)).2⟩

/-! ### C10: only non-empty lists enter the catalog cache -/

/-- The invariant: every item list stored in the cache is non-empty. -/
def catalogListsNonEmpty (st : Cache) : Prop :=
  ∀ key (l : List MetaItem), cacheGet key st = some (CVal.metas l) → l ≠ []

/-- The cache state carried by a fetch outcome (the post state on success,
the state at the throw on failure). -/
def exceptState {α : Type} : Except Cache (α × Cache) → Cache
  | Except.ok p => p.2
  | Except.error st => st

theorem inv_cacheSet {st : Cache} (h : catalogListsNonEmpty st) (k : String)
    (v : CVal) (t : Nat)
    (hv : ∀ l : List MetaItem, v = CVal.metas l → l ≠ []) :
    catalogListsNonEmpty (cacheSet k v t st) := by
  intro key l hk
  rw [cacheGet_cacheSet] at hk
  by_cases hkk : key = k
  · rw [if_pos hkk] at hk
    exact hv l (Option.some.inj hk)
  · rw [if_neg hkk] at hk
    exact h key l hk

theorem inv_getIMDBId (env : Env) (tmdbId : Nat) (kind : String) {st : Cache}
    (h : catalogListsNonEmpty st) :
    catalogListsNonEmpty (getIMDBId env tmdbId kind st).2 := by
  simp only [getIMDBId]
  cases hc : cacheGet ("imdb_" ++ kind ++ "_" ++ toString tmdbId) st with
  | none =>
    cases he : env.externalId kind tmdbId with
    | ok v => exact inv_cacheSet h _ _ _ (fun l hl => by cases hl)
    | error e => exact inv_cacheSet h _ _ _ (fun l hl => by cases hl)
  | some v =>
    cases v with
    | metas l => exact h
    | boolV b => exact h
    | idV o => exact h
    | natV n => exact h

theorem inv_hasHindiAudio (env : Env) (movieId : Nat) {st : Cache}
    (h : catalogListsNonEmpty st) :
    catalogListsNonEmpty (hasHindiAudio env movieId st).2 := by
  simp only [hasHindiAudio]
  cases hc : cacheGet ("hindi_" ++ toString movieId) st with
  | none =>
    cases he : env.detail movieId with
    | ok d =>
      by_cases h1 : (d.original_language == "hi") = true
      · simp only [h1, if_true]
        exact inv_cacheSet h _ _ _ (fun l hl => by cases hl)
      · simp only [h1, Bool.false_eq_true, if_false]
        by_cases h2 : (d.translations.any fun t => t == "hi") = true
        · simp only [h2, if_true]
          exact inv_cacheSet h _ _ _ (fun l hl => by cases hl)
        · simp only [h2, Bool.false_eq_true, if_false]
          by_cases h3 : (d.release_regions.any fun r => r == "IN") = true
          · simp only [h3, if_true]
            exact inv_cacheSet h _ _ _ (fun l hl => by cases hl)
          · simp only [h3, Bool.false_eq_true, if_false]
            exact inv_cacheSet h _ _ _ (fun l hl => by cases hl)
    | error e => exact inv_cacheSet h _ _ _ (fun l hl => by cases hl)
  | some v =>
    cases v with
    | metas l => exact h
    | boolV b => exact h
    | idV o => exact h
    | natV n => exact h

theorem inv_formatMovie (env : Env) (m : RawItem) {st : Cache}
    (h : catalogListsNonEmpty st) :
    catalogListsNonEmpty (formatMovie env m st).2 := by
  have hg := inv_getIMDBId env m.id "movie" h
  unfold formatMovie
  by_cases hp : truthyStr m.poster_path = false
  · rw [if_pos hp]
    exact h
  · rw [if_neg hp]
    by_cases hid : (m.id == 0) = true
    · rw [if_pos hid]
      exact h
    · rw [if_neg hid]
      rcases hgp : getIMDBId env m.id "movie" st with ⟨o, st1⟩
      rw [hgp] at hg
      cases o with
      | none => exact hg
      | some s =>
        by_cases hs : (s == "") = true
        · simp only [hs, if_true]
          exact hg
        · have hs2 : (s == "") = false := by simpa using hs
          simp only [hs2, Bool.false_eq_true, if_false]
          exact hg

theorem inv_formatSeries (env : Env) (m : RawItem) {st : Cache}
    (h : catalogListsNonEmpty st) :
    catalogListsNonEmpty (formatSeries env m st).2 := by
  have hg := inv_getIMDBId env m.id "series" h
  unfold formatSeries
  by_cases hp : truthyStr m.poster_path = false
  · rw [if_pos hp]
    exact h
  · rw [if_neg hp]
    by_cases hid : (m.id == 0) = true
    · rw [if_pos hid]
      exact h
    · rw [if_neg hid]
      rcases hgp : getIMDBId env m.id "series" st with ⟨o, st1⟩
      rw [hgp] at hg
      cases o with
      | none => exact hg
      | some s =>
        by_cases hs : (s == "") = true
        · simp only [hs, if_true]
          exact hg
        · have hs2 : (s == "") = false := by simpa using hs
          simp only [hs2, Bool.false_eq_true, if_false]
          exact hg

theorem inv_mapState {α β : Type} (f : α → Cache → β × Cache)
    (hf : ∀ a st, catalogListsNonEmpty st → catalogListsNonEmpty (f a st).2) :
    ∀ (l : List α) (st : Cache), catalogListsNonEmpty st →
      catalogListsNonEmpty (mapState f l st).2 := by
  intro l
  induction l with
  | nil => intro st h; exact h
  | cons x xs ih => intro st h; exact ih _ (hf x st h)

theorem inv_formatAll (env : Env) (ms : List RawItem) {st : Cache}
    (h : catalogListsNonEmpty st) :
    catalogListsNonEmpty (formatAll env ms st).2 :=
  inv_mapState _ (fun m _ hs => inv_formatMovie env m hs) ms st h

theorem inv_formatAllSeries (env : Env) (ms : List RawItem) {st : Cache}
    (h : catalogListsNonEmpty st) :
    catalogListsNonEmpty (formatAllSeries env ms st).2 :=
  inv_mapState _ (fun m _ hs => inv_formatSeries env m hs) ms st h

theorem inv_regionalLoop (env : Env) (page : Nat) :
    ∀ (langs : List String) (acc : List RawItem) (st : Cache),
      catalogListsNonEmpty st →
      catalogListsNonEmpty (exceptState (regionalLoop env page langs acc st)) := by
  intro langs
  induction langs with
  | nil => intro acc st h; exact h
  | cons lang rest ih =>
    intro acc st h
    simp only [regionalLoop]
    by_cases hlen : 25 ≤ acc.length
    · rw [if_pos hlen]
      exact h
    · rw [if_neg hlen]
      cases he : env.discoverIndian lang page with
      | error e => exact h
      | ok regional =>
        exact ih _ _
          (inv_mapState _ (fun m s hs => inv_hasHindiAudio env m.id hs) regional st h)

theorem inv_catalogFetch (env : Env) (args : Args) (page : Nat) {st : Cache}
    (h : catalogListsNonEmpty st) :
    catalogListsNonEmpty (exceptState (catalogFetch env args page st)) := by
  have hmapInd : ∀ (movies : List RawItem) (s0 : Cache), catalogListsNonEmpty s0 →
      catalogListsNonEmpty
        ((mapState
          (fun m s =>
            if indianLangs.contains m.original_language then hasHindiAudio env m.id s
            else (false, s)) movies s0)).2 := by
    intro movies s0 hs0
    refine inv_mapState _ ?_ movies s0 hs0
    intro a stx hstx
    by_cases hl : indianLangs.contains a.original_language = true
    · simp only [hl, if_true]
      exact inv_hasHindiAudio env a.id hstx
    · simp only [hl, Bool.false_eq_true, if_false]
      exact hstx
  simp only [catalogFetch]
  by_cases hq : (args.search.getD "" == "") = true
  · rw [if_pos hq]
    by_cases h1 : (args.type == "movie" && args.id == "hollywood_latest") = true
    · rw [if_pos h1]
      cases he : env.discoverHollywood page with
      | error e => exact h
      | ok movies => exact inv_formatAll env movies h
    · rw [if_neg h1]
      by_cases h2 : (args.type == "movie" && args.id == "indian_latest") = true
      · rw [if_pos h2]
        cases he : env.discoverIndian "hi" page with
        | error e => exact h
        | ok allMovies =>
          dsimp only
          have hrl := inv_regionalLoop env page regionalLangs allMovies st h
          cases hb : regionalLoop env page regionalLangs allMovies st with
          | error stE =>
            rw [hb] at hrl
            dsimp only
            exact hrl
          | ok p =>
            rw [hb] at hrl
            rcases p with ⟨allMovies2, st1⟩
            dsimp only
            exact inv_formatAll env _ hrl
      · rw [if_neg h2]
        by_cases h3 : (args.type == "series" && args.id == "hollywood_series_latest") = true
        · rw [if_pos h3]
          cases he : env.discoverSeries page with
          | error e => exact h
          | ok series => exact inv_formatAllSeries env series h
        · rw [if_neg h3]
          exact h
  · rw [if_neg hq]
    by_cases h1 : (args.type == "movie") = true
    · rw [if_pos h1]
      cases he : env.searchMovie (args.search.getD "") page with
      | error e => exact h
      | ok movies =>
        dsimp only
        by_cases h2 : (args.id == "indian_latest") = true
        · rw [if_pos h2]
          exact inv_formatAll env _ (hmapInd movies st h)
        · rw [if_neg h2]
          by_cases h3 : (args.id == "hollywood_latest") = true
          · rw [if_pos h3]
            exact inv_formatAll env _ h
          · rw [if_neg h3]
            exact inv_formatAll env _ h
    · rw [if_neg h1]
      by_cases h4 : (args.type == "series") = true
      · rw [if_pos h4]
        cases he : env.searchTv (args.search.getD "") page with
        | error e => exact h
        | ok series => exact inv_formatAllSeries env _ h
      · rw [if_neg h4]
        exact h

theorem inv_storeResult (ck pk : String) (skip : Nat) (metas : List MetaItem)
    {st : Cache} (h : catalogListsNonEmpty st) :
    catalogListsNonEmpty (storeResult ck pk skip metas st) := by
  unfold storeResult
  by_cases hlen : 0 < metas.length
  · rw [if_pos hlen]
    have hstore : catalogListsNonEmpty (cacheSet ck (CVal.metas metas) 1800 st) :=
      inv_cacheSet h ck _ _
        (fun l hl => by
          have : metas = l := by injection hl
          exact this ▸ List.length_pos.mp hlen)
    by_cases hs : (skip == 0) = true
    · rw [if_pos hs]
      exact inv_cacheSet hstore pk _ _ (fun l hl => by cases hl)
    · rw [if_neg hs]
      exact hstore
  · rw [if_neg hlen]
    exact h

theorem inv_catalogHandler (env : Env) (args : Args) {st : Cache}
    (h : catalogListsNonEmpty st) :
    catalogListsNonEmpty (catalogHandler env args st).2 := by
  simp only [catalogHandler]
  have hf := inv_catalogFetch env args (requestPlan args st).page h
  cases hc : cacheGet (requestPlan args st).cacheKey st with
  | none =>
    cases hb : catalogFetch env args (requestPlan args st).page st with
    | error stE =>
      rw [hb] at hf
      exact hf
    | ok p =>
      rw [hb] at hf
      rcases p with ⟨metas, st1⟩
      exact inv_storeResult _ _ _ _ hf
  | some v =>
    cases v with
    | metas l => exact h
    | boolV b =>
      cases hb : catalogFetch env args (requestPlan args st).page st with
      | error stE => rw [hb] at hf; exact hf
      | ok p =>
        rw [hb] at hf
        rcases p with ⟨metas, st1⟩
        exact inv_storeResult _ _ _ _ hf
    | idV s =>
      cases hb : catalogFetch env args (requestPlan args st).page st with
      | error stE => rw [hb] at hf; exact hf
      | ok p =>
        rw [hb] at hf
        rcases p with ⟨metas, st1⟩
        exact inv_storeResult _ _ _ _ hf
    | natV n =>
      cases hb : catalogFetch env args (requestPlan args st).page st with
      | error stE => rw [hb] at hf; exact hf
      | ok p =>
        rw [hb] at hf
        rcases p with ⟨metas, st1⟩
        exact inv_storeResult _ _ _ _ hf

/-- C10: the handler stores item lists only when they are non-empty, so the
non-empty invariant on cached lists is preserved by every request (first
conjunct); a cache hit therefore always returns a non-empty list (second);
and an empty result writes nothing at all — not the page cache and not the
learner — so the next identical request misses again and refetches
(third). -/
theorem cache_nonempty_invariant (env : Env) (args : Args) (st : Cache) :
    (catalogListsNonEmpty st →
      catalogListsNonEmpty (catalogHandler env args st).2) ∧
    (∀ l : List MetaItem, catalogListsNonEmpty st →
      cacheGet (requestPlan args st).cacheKey st = some (CVal.metas l) →
      (catalogHandler env args st).1.metas = l ∧ l ≠ []) ∧
    (∀ ck pk skip st1, storeResult ck pk skip [] st1 = st1) := by
  refine ⟨fun h => inv_catalogHandler env args h, ?_, ?_⟩
  · intro l hinv hc
    constructor
    · simp only [catalogHandler]
      rw [hc]
    · exact hinv _ l hc
  · intro ck pk skip st1
    rfl

/-- A cache holding one non-empty first page for the hollywood signature. -/
def stHit : Cache := [("hollywood_latest_p1", (CVal.metas [metaA], 1800))]

/-- Witness for C10: the hit on the stored non-empty page returns it, and
storing an empty result changes nothing. -/
theorem cache_nonempty_invariant_w :
    cacheGet (requestPlan argsHollywood stHit).cacheKey stHit =
      some (CVal.metas [metaA]) ∧
    (catalogHandler envFail argsHollywood stHit).1.metas = [metaA] ∧
    ([metaA] : List MetaItem) ≠ [] ∧
    storeResult "a" "b" 5 [] [] = [] := by
  have hinv : catalogListsNonEmpty stHit := by
    intro key l hk
    by_cases hkey : (("hollywood_latest_p1" : String) == key) = true
    · simp only [stHit, cacheGet, cacheGetEntry, List.find?, hkey, Option.map] at hk
      have : CVal.metas [metaA] = CVal.metas l := Option.some.inj hk
      have hl : [metaA] = l := by injection this
      rw [← hl]
      simp
    · simp only [stHit, cacheGet, cacheGetEntry, List.find?, hkey, Option.map] at hk
      cases hk
  have happ := (cache_nonempty_invariant envFail argsHollywood stHit).2.1 [metaA] hinv rfl
  exact ⟨rfl, happ.1, happ.2,
    (cache_nonempty_invariant envFail argsHollywood []).2.2 "a" "b" 5 []⟩
